import Mathlib

/-!
# QuizWhiz quiz-taking session core: a shallow embedding

This file embeds, in Lean, the quiz-taking session subsystem of the
QuizWhiz web application: the submission controller (`handleSubmitQuiz`,
`goToNext` and the timer effect of `src/app/quiz/[quizId]/take/page.tsx`)
and the focus/visibility cheating-detection hook
(`src/hooks/use-cheating-detection.ts`).  The data model follows
`src/lib/types.ts`.

Modelling conventions:
* JavaScript strings are `String`; a submitted answer (`string | string[]`)
  is the inductive `Ans`; record fields keep the source's names.
* The answer map `answers : Record<string, string | string[]>` is an
  association list; absence of a key is absence of an entry.
* JS truthiness of an answer value (`""` is falsy, every array is truthy)
  is `jsTruthy`.
* The React `useState` setter does not change the value captured by the
  closures of the current render: within one event turn every invocation
  of `handleSubmitQuiz` reads the same snapshot of `isSubmitting`, and the
  scheduled updates take effect only at the re-render that ends the turn.
  `submitOnce` therefore maps a *snapshot* of the controller state to the
  effects of one invocation (the persistence call it makes, if any, and
  the state the scheduled updates produce); `submitSeq` chains turns, one
  invocation per turn, committing the updates in between.
* Timestamps are in milliseconds (`Nat`), as `Date.getTime()` values.
-/

namespace QuizWhiz

/-- Question type: `"mcq" | "msq" | "tf" | "text"` from `src/lib/types.ts`. -/
inductive QType where
  | mcq | msq | tf | text
deriving DecidableEq, Repr

/-- A submitted answer value, `string | string[]` in the source. -/
inductive Ans where
  | str (s : String)
  | multi (l : List String)
deriving DecidableEq, Repr

/-- `Question` from `src/lib/types.ts` (plus the `isRequired` flag the
take page reads; an absent flag is `false`, matching JS truthiness of
`undefined`). -/
structure Question where
  id : String
  questionText : String
  type : QType
  options : List String
  correctAnswers : List String
  isRequired : Bool
deriving DecidableEq, Repr

/-- The part of `Quiz` from `src/lib/types.ts` the session uses. -/
structure Quiz where
  id : String
  title : String
  durationMinutes : Nat
  cheatingProtection : Bool
  questions : List Question
deriving DecidableEq, Repr

/-- The authenticated user (`UserProfile` in `src/lib/types.ts`). -/
structure User where
  uid : String
  displayName : String
deriving DecidableEq, Repr

/-- The submission trigger: `'manual' | 'timeout' | 'cheating'`. -/
inductive Trigger where
  | manual | timeout | cheating
deriving DecidableEq, Repr

/-- JS truthiness of an answer value: the empty string is falsy, every
array (including `[]`) is truthy. -/
def jsTruthy : Ans → Bool
  | Ans.str s => s ≠ ""
  | Ans.multi _ => true

/-- The answer map: `answers : Record<string, string | string[]>`. -/
abbrev AnswerState := List (String × Ans)

/-- `answers[q.id] || null` — the value the scoring and payload code
reads: an absent entry and a falsy entry (empty string) both become
`null` (`none`); a stored array, even empty, stays. -/
def userAnswerOf (answers : AnswerState) (qid : String) : Option Ans :=
  match List.lookup qid answers with
  | some a => if jsTruthy a then some a else none
  | none => none

/-- The multi-choice correctness test from `handleSubmitQuiz`:
`userAnswer.length === q.correctAnswers.length &&
 userAnswer.every(a => q.correctAnswers.includes(a))`. -/
def isCorrectMsq (sub cor : List String) : Bool :=
  sub.length = cor.length && sub.all (fun a => cor.contains a)

/-- Correctness of one (truthy) submitted value for a question, from the
score computation in `handleSubmitQuiz`: for `msq`, the array test
(`Array.isArray(userAnswer)` fails on a string); otherwise
`q.correctAnswers[0] === userAnswer` (false when the submitted value is
an array, or when `correctAnswers` is empty). -/
def isCorrectFor (q : Question) (a : Ans) : Bool :=
  if q.type = QType.msq then
    match a with
    | Ans.multi l => isCorrectMsq l q.correctAnswers
    | Ans.str _ => false
  else
    match a with
    | Ans.str s => q.correctAnswers.head? = some s
    | Ans.multi _ => false

/-- Whether a question counts as correct given the answer map: absent or
falsy answers are never correct (`if (userAnswer)` guard). -/
def scoresCorrect (answers : AnswerState) (q : Question) : Bool :=
  match userAnswerOf answers q.id with
  | some a => isCorrectFor q a
  | none => false

/-- The score computed by `handleSubmitQuiz`: forced to `0` for a
cheating submission, otherwise the count of correct questions. -/
def computeScore (trigger : Trigger) (questions : List Question)
    (answers : AnswerState) : Nat :=
  if trigger = Trigger.cheating then 0
  else questions.countP (fun q => scoresCorrect answers q)

/-- The persisted answers payload: for each question,
`{ questionId: q.id, value: answers[q.id] || null }`. -/
def answersPayload (questions : List Question) (answers : AnswerState) :
    List (String × Option Ans) :=
  questions.map (fun q => (q.id, userAnswerOf answers q.id))

/-- `Math.round((now - start) / 1000)`: the elapsed milliseconds rounded
to the nearest whole second, half away from zero — for a non-negative
argument, `Math.round(ms / 1000) = ⌊(ms + 500) / 1000⌋`. -/
def timeTakenSecondsOf (startMs nowMs : Nat) : Nat :=
  (nowMs - startMs + 500) / 1000

/-- The persisted attempt document (`rawAttemptData` in
`handleSubmitQuiz`, matching `Attempt` in `src/lib/types.ts`). -/
structure AttemptRecord where
  quizId : String
  quizTitle : String
  userId : String
  userName : String
  answers : List (String × Option Ans)
  score : Nat
  totalQuestions : Nat
  cheatingViolations : Nat
  startedAtMs : Nat
  submittedAtMs : Nat
  timeTakenSeconds : Nat
  submissionType : Trigger
deriving DecidableEq, Repr

/-- The controller state owned by the take page: the `useState` values
`isSubmitting`, `currentQuestionIndex`, `answers`, the `useRef` value
`violationCount`, and the constant `startTime`. -/
structure Ctrl where
  isSubmitting : Bool
  currentQuestionIndex : Nat
  answers : AnswerState
  violations : Nat
  startTimeMs : Nat
deriving DecidableEq, Repr

/-- An answer entry that fails the required-question check of
`handleSubmitQuiz` / `goToNext`: absent, falsy (`!ans` — covers the empty
string), an empty array, or a whitespace-only string (`trim() === ''`). -/
def isEmptyAns : Option Ans → Bool
  | none => true
  | some (Ans.str s) => s.trim = ""
  | some (Ans.multi l) => l.isEmpty

/-- Whether a question blocks manual submission / forward navigation:
required and with an empty answer. -/
def unansweredRequired (answers : AnswerState) (q : Question) : Bool :=
  q.isRequired && isEmptyAns (List.lookup q.id answers)

/-- Builds `rawAttemptData` (the `undefined → null` sanitisation is the
identity on this already-null-normalised payload). -/
def buildAttempt (quiz : Quiz) (user : User) (st : Ctrl)
    (trigger : Trigger) (nowMs : Nat) : AttemptRecord :=
  { quizId := quiz.id
    quizTitle := quiz.title
    userId := user.uid
    userName := user.displayName
    answers := answersPayload quiz.questions st.answers
    score := computeScore trigger quiz.questions st.answers
    totalQuestions := quiz.questions.length
    cheatingViolations := st.violations
    startedAtMs := st.startTimeMs
    submittedAtMs := nowMs
    timeTakenSeconds := timeTakenSecondsOf st.startTimeMs nowMs
    submissionType := trigger }

/-- The observable effects of one `handleSubmitQuiz` invocation: the
controller state produced by committing its scheduled `setState` calls,
the persistence call it makes (`addDoc` into `attempts`), and whether a
destructive toast (diagnostic) is shown. -/
structure SubmitEff where
  next : Ctrl
  persisted : Option AttemptRecord
  diagnostic : Bool
deriving Repr

/-- One `handleSubmitQuiz(submissionType)` invocation, as a function of
the state snapshot its closure captured.

* Guard: `if (isSubmitting || !quiz || !user) return` — a no-op.
* Manual validation: the first required question with an empty answer
  cancels the submission; the cursor is moved to the first question
  sharing that question's id (`findIndex(q => q.id === ...)`), and the
  net scheduled update leaves `isSubmitting` false.
* Otherwise the record is built and persisted; `persistOk` tells whether
  `addDoc` succeeds.  On success `isSubmitting` remains true (the page
  navigates to the results view); on failure the catch block shows the
  error toast and resets `isSubmitting` to false, touching nothing else. -/
def submitOnce (quiz : Quiz) (user? : Option User) (nowMs : Nat)
    (persistOk : Bool) (snap : Ctrl) (trigger : Trigger) : SubmitEff :=
  if snap.isSubmitting then ⟨snap, none, false⟩
  else
    match user? with
    | none => ⟨snap, none, false⟩
    | some user =>
      match trigger, quiz.questions.find? (fun q => unansweredRequired snap.answers q) with
      | Trigger.manual, some firstQ =>
        ⟨{ snap with currentQuestionIndex :=
              quiz.questions.findIdx (fun q => q.id = firstQ.id) },
          none, true⟩
      | _, _ =>
        let record := buildAttempt quiz user snap trigger nowMs
        if persistOk then
          ⟨{ snap with isSubmitting := true }, some record, false⟩
        else
          ⟨snap, some record, true⟩

/-- A sequence of `handleSubmitQuiz` invocations, one per event turn:
the scheduled state updates of each turn are committed (re-rendered)
before the next invocation runs, so each call reads the state the
previous one produced.  Returns the final state and every persistence
call made. -/
def submitSeq (quiz : Quiz) (user? : Option User) (nowMs : Nat)
    (persistOk : Bool) : Ctrl → List Trigger → Ctrl × List AttemptRecord
  | st, [] => (st, [])
  | st, t :: ts =>
    let eff := submitOnce quiz user? nowMs persistOk st t
    let rest := submitSeq quiz user? nowMs persistOk eff.next ts
    (rest.1, eff.persisted.toList ++ rest.2)

/-- Two `handleSubmitQuiz` invocations in the same event turn: both
closures read the same snapshot (`isSubmitting` has not been re-rendered
between them), and the persistence calls of both take place. -/
def sameTurnPersists (quiz : Quiz) (user? : Option User) (nowMs : Nat)
    (persistOk : Bool) (snap : Ctrl) (t1 t2 : Trigger) :
    List AttemptRecord :=
  (submitOnce quiz user? nowMs persistOk snap t1).persisted.toList ++
    (submitOnce quiz user? nowMs persistOk snap t2).persisted.toList

/-- `goToNext`: if the current question exists, is required and has an
empty answer, show the diagnostic and keep the cursor; otherwise advance
when not on the last question.  Returns the new cursor and whether the
diagnostic fired. -/
def goToNext (quiz : Quiz) (answers : AnswerState) (idx : Nat) :
    Nat × Bool :=
  match quiz.questions[idx]? with
  | some q =>
    if unansweredRequired answers q then (idx, true)
    else if idx < quiz.questions.length - 1 then (idx + 1, false)
    else (idx, false)
  | none =>
    if idx < quiz.questions.length - 1 then (idx + 1, false)
    else (idx, false)

/-! ## FocusMonitor: `src/hooks/use-cheating-detection.ts`

The hook keeps two refs, `violationCount` (starts 0) and `isPageVisible`
(starts true), and registers three listeners: `visibilitychange`
(dispatching on `document.hidden`), `blur` and `focus`.  `handleBlur`
does nothing immediately; it schedules a check 300 ms later that
increments only if `isPageVisible.current` is still true and
`document.hasFocus()` is false.  The effect's cleanup removes the three
listeners but does not cancel a pending `setTimeout`: a scheduled check
still runs after teardown, against the same refs and the same
`onViolation` callback.  Every increment is immediately followed by
`onViolation(violationCount.current)`, so the violation counter counts
exactly the emitted callbacks. -/

/-- A DOM signal delivered to the hook's listeners: `hidden` / `visible`
are the two cases of `visibilitychange`; `blur` and `focus` are the
window events. -/
inductive MSig where
  | hidden | visible | blur | focus
deriving DecidableEq, Repr

/-- FocusMonitor state: the two refs, the number of scheduled (not yet
fired) blur timeouts, and whether the listeners are attached. -/
structure MonSt where
  violations : Nat
  isVisible : Bool
  pendingChecks : Nat
  active : Bool
deriving DecidableEq, Repr

/-- The state at hook start: count 0, page visible, nothing pending,
listeners attached. -/
def initMon : MonSt :=
  { violations := 0, isVisible := true, pendingChecks := 0, active := true }

/-- Delivery of one DOM signal.  While the listeners are attached:
`handleVisibilityChange` on a hidden document sets the ref false and
increments unconditionally; on a visible document it only sets the ref
true; `handleBlur` schedules the 300 ms check; `handleFocus` sets the
ref true.  After teardown the listeners are removed, so signals are
no-ops. -/
def applySig (s : MonSt) : MSig → MonSt
  | MSig.hidden =>
    if s.active then
      { s with isVisible := false, violations := s.violations + 1 }
    else s
  | MSig.visible =>
    if s.active then { s with isVisible := true } else s
  | MSig.blur =>
    if s.active then { s with pendingChecks := s.pendingChecks + 1 } else s
  | MSig.focus =>
    if s.active then { s with isVisible := true } else s

/-- The delayed blur check firing, with `hasFocus` the value of
`document.hasFocus()` at that moment.  It runs whether or not the
listeners are still attached (the cleanup does not clear the timeout),
and increments only if the page was still considered visible and focus
is genuinely lost. -/
def fireCheck (hasFocus : Bool) (s : MonSt) : MonSt :=
  if s.pendingChecks = 0 then s
  else
    let s' := { s with pendingChecks := s.pendingChecks - 1 }
    if s.isVisible && !hasFocus then
      { s' with isVisible := false, violations := s'.violations + 1 }
    else s'

/-- The effect cleanup: removes the three listeners.  Pending timeouts
are not cancelled. -/
def stopMon (s : MonSt) : MonSt := { s with active := false }

/-- One scheduler step: a DOM signal, a blur-timeout firing, or the
cleanup running. -/
inductive MonEv where
  | sig (s : MSig)
  | check (hasFocus : Bool)
  | stop
deriving DecidableEq, Repr

/-- Interpretation of one scheduler step. -/
def monStep (s : MonSt) : MonEv → MonSt
  | MonEv.sig sg => applySig s sg
  | MonEv.check hasFocus => fireCheck hasFocus s
  | MonEv.stop => stopMon s

/-- A whole schedule of steps, run from a starting state. -/
def monRun (s : MonSt) (evs : List MonEv) : MonSt :=
  evs.foldl monStep s

/-! ## SessionClock: the timer effect of the take page

`timeLeft` starts at `durationMinutes * 60`.  The effect runs on every
change of `timeLeft`: at a value `≤ 0` it fires the expiry branch
(`handleSubmitQuiz('timeout')`) and installs no interval; at a positive
value it installs a one-second interval whose firing decrements
`timeLeft` (`prevTime ? prevTime - 1 : 0`), which re-runs the effect.
Each decrement is one tick with the new remaining value. -/

/-- An observable clock event: a tick carrying the new remaining value,
or the expiry branch firing. -/
inductive ClockEvent where
  | tick (remaining : Int)
  | expire
deriving DecidableEq, Repr

/-- The sequence of clock events produced from a starting `timeLeft` of
`t`: expiry at once when `t ≤ 0`, otherwise a tick to `t - 1` and the
events from there. -/
def clockEvents (t : Int) : List ClockEvent :=
  if t ≤ 0 then [ClockEvent.expire]
  else ClockEvent.tick (t - 1) :: clockEvents (t - 1)
termination_by t.toNat
decreasing_by omega

/-- The remaining values carried by the ticks of an event sequence. -/
def ticksOf (evs : List ClockEvent) : List Int :=
  evs.filterMap (fun e =>
    match e with
    | ClockEvent.tick r => some r
    | ClockEvent.expire => none)

/-- The number of expiry firings in an event sequence. -/
def expireCount (evs : List ClockEvent) : Nat :=
  evs.countP (fun e =>
    match e with
    | ClockEvent.tick _ => false
    | ClockEvent.expire => true)

/-! The effect's dependency array is `[timeLeft, handleSubmitQuiz,
toast]`, so the effect re-runs not only when `timeLeft` changes but also
whenever `handleSubmitQuiz`'s `useCallback` identity changes — which the
program itself causes: the expiry branch's `handleSubmitQuiz('timeout')`
commits `setIsSubmitting(true)`, the re-render rebuilds the callback
(it depends on `isSubmitting`), and the effect re-runs with `timeLeft`
still 0, executing the expiry branch again (and yet again after a
failed persist resets the flag).  `timerStep`/`timerRun` model this
full semantics; `clockEvents` above is the trace of the pure countdown
schedule, with no dependency-driven re-runs. -/

/-- A scheduler step for the timer effect: the one-second interval
firing, or an effect re-run caused by a dependency identity change
(`handleSubmitQuiz` or `toast` rebuilt by a re-render). -/
inductive TimerEv where
  | interval | depChange
deriving DecidableEq, Repr

/-- One scheduler step from the current `timeLeft`.  An interval exists
only while `timeLeft > 0`; its firing decrements (`prevTime ? prevTime -
1 : 0`) and the effect re-runs at the new value, firing the expiry
branch if it reached 0.  A dependency change re-runs the effect at the
unchanged value: at `timeLeft ≤ 0` that executes the expiry branch
again, otherwise it merely reinstalls the interval. -/
def timerStep (t : Int) : TimerEv → Int × List ClockEvent
  | TimerEv.interval =>
    if t ≤ 0 then (t, [])
    else (t - 1, ClockEvent.tick (t - 1) ::
      (if t - 1 ≤ 0 then [ClockEvent.expire] else []))
  | TimerEv.depChange =>
    (t, if t ≤ 0 then [ClockEvent.expire] else [])

/-- A whole schedule of timer steps: final `timeLeft` and the emitted
events. -/
def timerRun : Int → List TimerEv → Int × List ClockEvent
  | t, [] => (t, [])
  | t, e :: evs =>
    let st := timerStep t e
    let rest := timerRun st.1 evs
    (rest.1, st.2 ++ rest.2)

/-- The full trace from a starting `timeLeft` of `n` under a schedule:
the initial effect run (which fires the expiry branch at once when
`n ≤ 0`) followed by the scheduled steps. -/
def timerTrace (n : Int) (evs : List TimerEv) : List ClockEvent :=
  (if n ≤ 0 then [ClockEvent.expire] else []) ++ (timerRun n evs).2

/-! ## Concrete fixtures used by witnesses and counterexamples -/

/-- A multi-choice question with correct answers `{"A","C"}`. -/
def qMsq : Question :=
  { id := "q1", questionText := "pick", type := QType.msq
    options := ["A", "B", "C"], correctAnswers := ["A", "C"]
    isRequired := false }

/-- A required free-text question. -/
def qReq : Question :=
  { id := "q2", questionText := "explain", type := QType.text
    options := [], correctAnswers := ["x"], isRequired := true }

/-- A one-question quiz around `qMsq`. -/
def quiz1 : Quiz :=
  { id := "quiz1", title := "T", durationMinutes := 1
    cheatingProtection := true, questions := [qMsq] }

/-- A two-question quiz whose second question is required. -/
def quiz2 : Quiz :=
  { id := "quiz2", title := "T2", durationMinutes := 1
    cheatingProtection := false, questions := [qReq, qMsq] }

/-- A signed-in user. -/
def user1 : User := { uid := "u1", displayName := "U" }

/-- A fresh controller state: not submitting, cursor at 0, no answers,
no violations, started at time 0. -/
def ctrl0 : Ctrl :=
  { isSubmitting := false, currentQuestionIndex := 0, answers := []
    violations := 0, startTimeMs := 0 }

/-! ## Theorems -/

/-- C1.  The `isSubmitting` guard deduplicates submissions only across
event turns: two `handleSubmitQuiz` invocations in the *same* turn both
read the stale snapshot in which `isSubmitting` is still false (the
React state update is committed only at re-render), so both reach the
persistence call — two attempt records are written, where the claim
requires exactly one.  Sequential turns, with the update committed in
between, do persist exactly once. -/
theorem c1_same_turn_double_persist :
    (sameTurnPersists quiz1 (some user1) 1000 true ctrl0
        Trigger.timeout Trigger.cheating).length = 2 ∧
    (submitSeq quiz1 (some user1) 1000 true ctrl0
        [Trigger.timeout, Trigger.cheating]).2.length = 1 := by
  decide

/-- From a snapshot already in `Submitting`/`Submitted`
(`isSubmitting = true`), an invocation is a complete no-op. -/
theorem submitOnce_of_submitting (quiz : Quiz) (user? : Option User)
    (nowMs : Nat) (persistOk : Bool) (st : Ctrl) (t : Trigger)
    (h : st.isSubmitting = true) :
    submitOnce quiz user? nowMs persistOk st t = ⟨st, none, false⟩ := by
  simp [submitOnce, h]

/-- Once `Submitting` has been committed, a whole sequence of further
turns is inert: no state change and no persistence call. -/
theorem submitSeq_of_submitting (quiz : Quiz) (user? : Option User)
    (nowMs : Nat) (persistOk : Bool) (ts : List Trigger) (st : Ctrl)
    (h : st.isSubmitting = true) :
    submitSeq quiz user? nowMs persistOk st ts = (st, []) := by
  induction ts with
  | nil => rfl
  | cons t ts ih =>
    rw [submitSeq, submitOnce_of_submitting quiz user? nowMs persistOk st t h]
    simp [ih]

/-- With a successful store, one invocation either persists nothing and
leaves the submission flag as it found it, or persists one record and
commits the flag. -/
theorem submitOnce_next_cases (quiz : Quiz) (user? : Option User)
    (nowMs : Nat) (st : Ctrl) (t : Trigger) :
    ((submitOnce quiz user? nowMs true st t).persisted = none ∧
      (submitOnce quiz user? nowMs true st t).next.isSubmitting
        = st.isSubmitting) ∨
    (∃ r, (submitOnce quiz user? nowMs true st t).persisted = some r ∧
      (submitOnce quiz user? nowMs true st t).next.isSubmitting = true) := by
  by_cases hsub : st.isSubmitting
  · left
    simp [submitOnce, hsub]
  · cases user? with
    | none => left; simp [submitOnce, hsub]
    | some user =>
      cases t <;>
        cases hfind : quiz.questions.find?
            (fun q => unansweredRequired st.answers q) <;>
          simp [submitOnce, hsub, hfind]

/-- Across event turns — each invocation reading the state the previous
turn committed — at most one persistence call is ever made when the
store succeeds: this is the guard working as intended, and the property
the same-turn race defeats. -/
theorem submitSeq_atMostOne_persist (quiz : Quiz) (user? : Option User)
    (nowMs : Nat) (ts : List Trigger) (st : Ctrl) :
    (submitSeq quiz user? nowMs true st ts).2.length ≤ 1 := by
  induction ts generalizing st with
  | nil => simp [submitSeq]
  | cons t ts ih =>
    rw [submitSeq]
    rcases submitOnce_next_cases quiz user? nowMs st t with
      ⟨hnone, _⟩ | ⟨r, hsome, htrue⟩
    · simpa [hnone] using ih _
    · simp [hsome,
        submitSeq_of_submitting quiz user? nowMs true ts _ htrue]

/-- C8.  The effect cleanup removes the three listeners but does not
cancel a pending blur timeout: after a blur followed by teardown, the
300 ms check still fires and emits `onViolation` (the violation counter
moves from 0 to 1 strictly after `stop`), refuting "no further callbacks
after teardown". -/
theorem c8_pending_blur_check_fires_after_teardown :
    (monRun initMon [MonEv.sig MSig.blur, MonEv.stop]).violations = 0 ∧
    (monRun initMon
        [MonEv.sig MSig.blur, MonEv.stop, MonEv.check false]).violations
      = 1 := by
  decide

/-- C9 counterexample.  `timeTakenSeconds` is computed with
`Math.round`, not a floor: at 1500 ms elapsed the persisted field is 2
while the floor of 1500 ms is 1 second. -/
theorem c9_counterexample :
    (buildAttempt quiz1 user1 ctrl0 Trigger.manual 1500).timeTakenSeconds
      = 2 ∧ (1500 - ctrl0.startTimeMs) / 1000 = 1 := by
  decide

/-- C9 amended.  The persisted elapsed-seconds field is the elapsed
milliseconds rounded to the *nearest* whole second, half rounding up:
`r = timeTakenSeconds` is the unique natural with
`1000·r ≤ elapsed + 500 < 1000·r + 1000`. -/
theorem timeTaken_rounds_to_nearest (quiz : Quiz) (user : User)
    (st : Ctrl) (trigger : Trigger) (nowMs : Nat) :
    1000 * (buildAttempt quiz user st trigger nowMs).timeTakenSeconds
        ≤ (nowMs - st.startTimeMs) + 500 ∧
    (nowMs - st.startTimeMs) + 500
        < 1000 * (buildAttempt quiz user st trigger nowMs).timeTakenSeconds
            + 1000 := by
  show 1000 * ((nowMs - st.startTimeMs + 500) / 1000)
      ≤ (nowMs - st.startTimeMs) + 500 ∧ _
  constructor
  · exact Nat.mul_div_le _ 1000 |>.trans_eq rfl
  · show (nowMs - st.startTimeMs) + 500
        < 1000 * ((nowMs - st.startTimeMs + 500) / 1000) + 1000
    have h := Nat.div_add_mod (nowMs - st.startTimeMs + 500) 1000
    have h2 := Nat.mod_lt (nowMs - st.startTimeMs + 500)
      (show 0 < 1000 by norm_num)
    omega

/-- C10 counterexample.  A stored empty-array answer is *not* recorded
as null: JavaScript's `[] || null` keeps the (truthy) empty array, so
the persisted answers payload carries `[]` where the claim requires
`null`. -/
theorem c10_counterexample :
    answersPayload [qMsq] [(qMsq.id, Ans.multi [])]
      = [(qMsq.id, some (Ans.multi []))] ∧
    (some (Ans.multi []) : Option Ans) ≠ none := by
  decide

/-- C2.  A submission with trigger `'cheating'` (from a non-submitting
snapshot, with a signed-in user) always persists a record, and that
record's score is 0, whatever the answer state holds. -/
theorem cheating_submission_scores_zero (quiz : Quiz) (user : User)
    (nowMs : Nat) (persistOk : Bool) (snap : Ctrl)
    (h : snap.isSubmitting = false) :
    ∃ r, (submitOnce quiz (some user) nowMs persistOk snap
            Trigger.cheating).persisted = some r ∧ r.score = 0 := by
  refine ⟨buildAttempt quiz user snap Trigger.cheating nowMs, ?_, ?_⟩
  · cases hfind : quiz.questions.find?
        (fun q => unansweredRequired snap.answers q) <;>
      cases persistOk <;> simp [submitOnce, h, hfind]
  · simp [buildAttempt, computeScore]

/-- C2 witness: the cheating-trigger theorem at the concrete fixture
quiz, even though the sole stored answer is fully correct. -/
theorem cheating_submission_scores_zero_witness :
    ({ ctrl0 with answers := [(qMsq.id, Ans.multi ["A", "C"])] } :
        Ctrl).isSubmitting = false ∧
    ∃ r, (submitOnce quiz1 (some user1) 1000 true
            { ctrl0 with answers := [(qMsq.id, Ans.multi ["A", "C"])] }
            Trigger.cheating).persisted = some r ∧ r.score = 0 :=
  ⟨rfl, cheating_submission_scores_zero quiz1 user1 1000 true
    { ctrl0 with answers := [(qMsq.id, Ans.multi ["A", "C"])] } rfl⟩

/-- C3 counterexample.  `handleVisibilityChange` increments
unconditionally on a hidden document — the "only when `isVisible` was
previously true" guard of the claim does not exist in the code.  The
refuting state is reachable: after a blur whose grace check fired with
focus lost, `isVisible` is false, yet a hidden signal still increments
the count (from 1 to 2). -/
theorem c3_counterexample :
    (monRun initMon [MonEv.sig MSig.blur, MonEv.check false]).isVisible
        = false ∧
    (applySig (monRun initMon [MonEv.sig MSig.blur, MonEv.check false])
        MSig.hidden).violations
      = (monRun initMon
          [MonEv.sig MSig.blur, MonEv.check false]).violations + 1 := by
  decide

/-- C3 amended.  A hidden signal increments the violation count
unconditionally (also marking the page not visible); deduplication lives
on the blur side: the delayed grace check increments only while the page
still counts as visible and focus is lost.  Hence one focus-loss event
that fires both signals — the hidden signal processed before the blur's
grace check, in either order relative to the blur itself — yields
exactly one increment. -/
theorem c3_amended (s : MonSt) (hact : s.active = true) (hf : Bool) :
    (monRun s [MonEv.sig MSig.hidden, MonEv.sig MSig.blur,
        MonEv.check hf]).violations = s.violations + 1 ∧
    (monRun s [MonEv.sig MSig.blur, MonEv.sig MSig.hidden,
        MonEv.check hf]).violations = s.violations + 1 := by
  simp [monRun, monStep, applySig, fireCheck, hact]

/-- C3 witness: the amended theorem at the initial monitor state, for a
grace check that still sees focus lost. -/
theorem c3_amended_witness :
    initMon.active = true ∧
    ((monRun initMon [MonEv.sig MSig.hidden, MonEv.sig MSig.blur,
        MonEv.check false]).violations = initMon.violations + 1 ∧
     (monRun initMon [MonEv.sig MSig.blur, MonEv.sig MSig.hidden,
        MonEv.check false]).violations = initMon.violations + 1) :=
  ⟨rfl, c3_amended initMon rfl false⟩

/-- C10 amended.  An empty-string answer is treated exactly like an
absent one: nulled in the payload value and scored incorrect even when
the declared correct answer is itself the empty string.  An empty-array
answer is *not* nulled: it is kept in the payload, and the multi-choice
rule scores it incorrect precisely unless the question is `msq` with an
empty correct-answer set. -/
theorem empty_answer_handling (q : Question) (answers : AnswerState) :
    (List.lookup q.id answers = some (Ans.str "") →
      userAnswerOf answers q.id = none ∧ scoresCorrect answers q = false) ∧
    (List.lookup q.id answers = none →
      userAnswerOf answers q.id = none ∧ scoresCorrect answers q = false) ∧
    (List.lookup q.id answers = some (Ans.multi []) →
      userAnswerOf answers q.id = some (Ans.multi []) ∧
      (scoresCorrect answers q = true ↔
        q.type = QType.msq ∧ q.correctAnswers = [])) := by
  refine ⟨fun h => ?_, fun h => ?_, fun h => ?_⟩
  · constructor <;> simp [userAnswerOf, scoresCorrect, h, jsTruthy]
  · constructor <;> simp [userAnswerOf, scoresCorrect, h]
  · have hu : userAnswerOf answers q.id = some (Ans.multi []) := by
      simp [userAnswerOf, h, jsTruthy]
    refine ⟨hu, ?_⟩
    by_cases ht : q.type = QType.msq
    · simp [scoresCorrect, hu, isCorrectFor, ht, isCorrectMsq,
        List.length_eq_zero, eq_comm]
    · simp [scoresCorrect, hu, isCorrectFor, ht]

/-- C10 witness: the empty-array branch of the amended theorem at the
concrete multi-choice fixture. -/
theorem empty_answer_handling_witness :
    List.lookup qMsq.id [(qMsq.id, Ans.multi [])]
        = some (Ans.multi []) ∧
    (userAnswerOf [(qMsq.id, Ans.multi [])] qMsq.id
        = some (Ans.multi []) ∧
      (scoresCorrect [(qMsq.id, Ans.multi [])] qMsq = true ↔
        qMsq.type = QType.msq ∧ qMsq.correctAnswers = [])) :=
  ⟨by decide,
    (empty_answer_handling qMsq [(qMsq.id, Ans.multi [])]).2.2 (by decide)⟩

/-- C7.  When the persistence call fails, the catch block only surfaces
the error toast and resets `isSubmitting`: the controller is editable
again (`InProgress`) and the answer state, violation count and start
timestamp are exactly the ones the failed submission used, so a retry
submits the same work. -/
theorem persist_failure_preserves_state (quiz : Quiz) (user : User)
    (nowMs : Nat) (snap : Ctrl) (trigger : Trigger)
    (hsub : snap.isSubmitting = false)
    (hpers : (submitOnce quiz (some user) nowMs false snap
        trigger).persisted.isSome = true) :
    (submitOnce quiz (some user) nowMs false snap trigger).next.isSubmitting
        = false ∧
    (submitOnce quiz (some user) nowMs false snap trigger).next.answers
        = snap.answers ∧
    (submitOnce quiz (some user) nowMs false snap trigger).next.violations
        = snap.violations ∧
    (submitOnce quiz (some user) nowMs false snap trigger).next.startTimeMs
        = snap.startTimeMs ∧
    (submitOnce quiz (some user) nowMs false snap trigger).diagnostic
        = true := by
  cases trigger <;>
    cases hfind : quiz.questions.find?
        (fun q => unansweredRequired snap.answers q) <;>
      (simp only [submitOnce, hsub, hfind] at hpers ⊢; simp_all)

/-- C7 witness: a failed manual submission of the concrete fixture quiz
leaves the controller editable with its in-memory state intact. -/
theorem persist_failure_preserves_state_witness :
    ctrl0.isSubmitting = false ∧
    (submitOnce quiz1 (some user1) 1000 false ctrl0
        Trigger.manual).persisted.isSome = true ∧
    ((submitOnce quiz1 (some user1) 1000 false ctrl0
        Trigger.manual).next.isSubmitting = false ∧
     (submitOnce quiz1 (some user1) 1000 false ctrl0
        Trigger.manual).next.answers = ctrl0.answers ∧
     (submitOnce quiz1 (some user1) 1000 false ctrl0
        Trigger.manual).next.violations = ctrl0.violations ∧
     (submitOnce quiz1 (some user1) 1000 false ctrl0
        Trigger.manual).next.startTimeMs = ctrl0.startTimeMs ∧
     (submitOnce quiz1 (some user1) 1000 false ctrl0
        Trigger.manual).diagnostic = true) :=
  ⟨rfl, by decide,
    persist_failure_preserves_state quiz1 user1 1000 ctrl0
      Trigger.manual rfl (by decide)⟩

/-- The multi-choice test (`length` equality plus elementwise
membership) coincides with equality of the underlying finite sets when
both lists are duplicate-free. -/
theorem isCorrectMsq_iff_toFinset_eq (sub cor : List String)
    (h1 : sub.Nodup) (h2 : cor.Nodup) :
    isCorrectMsq sub cor = true ↔ sub.toFinset = cor.toFinset := by
  unfold isCorrectMsq
  simp only [Bool.and_eq_true, decide_eq_true_eq, List.all_eq_true,
    List.contains_iff_exists_mem_beq, beq_iff_eq, exists_eq_right]
  constructor
  · rintro ⟨hlen, hall⟩
    refine Finset.eq_of_subset_of_card_le ?_ ?_
    · intro a ha
      obtain ⟨a', ha', haa⟩ := hall a (List.mem_toFinset.mp ha)
      exact haa ▸ List.mem_toFinset.mpr ha'
    · rw [List.toFinset_card_of_nodup h1, List.toFinset_card_of_nodup h2,
        hlen]
  · intro heq
    constructor
    · rw [← List.toFinset_card_of_nodup h1,
        ← List.toFinset_card_of_nodup h2, heq]
    · intro a ha
      exact ⟨a, List.mem_toFinset.mp (heq ▸ List.mem_toFinset.mpr ha),
        rfl⟩

/-- C4.  A (duplicate-free) submitted value for a multi-choice question
is scored correct iff it is set-equal to the (duplicate-free)
correct-answer set — order-independent; any strict subset or superset
differs as a finite set and is therefore scored incorrect. -/
theorem msq_scored_correct_iff_set_eq (q : Question)
    (answers : AnswerState) (sub : List String)
    (hq : q.type = QType.msq)
    (ha : userAnswerOf answers q.id = some (Ans.multi sub))
    (h1 : sub.Nodup) (h2 : q.correctAnswers.Nodup) :
    scoresCorrect answers q = true ↔
      sub.toFinset = q.correctAnswers.toFinset := by
  rw [scoresCorrect, ha]
  simp only [isCorrectFor, hq, if_pos rfl]
  exact isCorrectMsq_iff_toFinset_eq sub q.correctAnswers h1 h2

/-- C4 witness: submitting `{"C","A"}` against correct answers
`{"A","C"}` — the theorem applied at the concrete fixture (and the sets
are indeed equal, so this submission scores correct). -/
theorem msq_scored_correct_iff_set_eq_witness :
    qMsq.type = QType.msq ∧
    userAnswerOf [(qMsq.id, Ans.multi ["C", "A"])] qMsq.id
        = some (Ans.multi ["C", "A"]) ∧
    (["C", "A"] : List String).Nodup ∧ qMsq.correctAnswers.Nodup ∧
    (scoresCorrect [(qMsq.id, Ans.multi ["C", "A"])] qMsq = true ↔
      (["C", "A"] : List String).toFinset = qMsq.correctAnswers.toFinset) :=
  ⟨rfl, by decide, by decide, by decide,
    msq_scored_correct_iff_set_eq qMsq [(qMsq.id, Ans.multi ["C", "A"])]
      ["C", "A"] rfl (by decide) (by decide) (by decide)⟩

/-- When question ids are unique, re-finding the found question by its
id (`findIndex(q => q.id === firstQ.id)`, as the submit handler does)
lands on the same index as the search predicate itself. -/
theorem findIdx_id_eq_of_find? (l : List Question)
    (p : Question → Bool) (q : Question)
    (hfind : l.find? p = some q)
    (hnd : (l.map Question.id).Nodup) :
    l.findIdx (fun q' => q'.id = q.id) = l.findIdx p := by
  induction l with
  | nil => simp at hfind
  | cons x xs ih =>
    rw [List.map_cons, List.nodup_cons] at hnd
    by_cases hx : p x
    · rw [List.find?_cons_of_pos _ hx] at hfind
      obtain rfl : x = q := by injection hfind
      simp [List.findIdx_cons, hx]
    · rw [List.find?_cons_of_neg _ hx] at hfind
      have hmem : q ∈ xs := List.mem_of_find?_eq_some hfind
      have hne : ¬(x.id = q.id) := fun he =>
        hnd.1 (he ▸ List.mem_map_of_mem Question.id hmem)
      simp [List.findIdx_cons, hx, hne, ih hfind hnd.2]

/-- C6.  With the current question required and carrying an empty
answer: `goToNext` keeps the cursor and surfaces the diagnostic; a
manual submission (question ids being unique, per the data model) makes
no persistence call, surfaces the diagnostic, stays editable
(`InProgress`), and relocates the cursor to the first required question
with an empty answer. -/
theorem required_gate (quiz : Quiz) (user : User) (nowMs : Nat)
    (persistOk : Bool) (snap : Ctrl) (q : Question)
    (hq : quiz.questions[snap.currentQuestionIndex]? = some q)
    (hreq : unansweredRequired snap.answers q = true)
    (hids : (quiz.questions.map Question.id).Nodup)
    (hsub : snap.isSubmitting = false) :
    goToNext quiz snap.answers snap.currentQuestionIndex
        = (snap.currentQuestionIndex, true) ∧
    (submitOnce quiz (some user) nowMs persistOk snap
        Trigger.manual).persisted = none ∧
    (submitOnce quiz (some user) nowMs persistOk snap
        Trigger.manual).diagnostic = true ∧
    (submitOnce quiz (some user) nowMs persistOk snap
        Trigger.manual).next.isSubmitting = false ∧
    (submitOnce quiz (some user) nowMs persistOk snap
        Trigger.manual).next.currentQuestionIndex
      = quiz.questions.findIdx
          (fun q' => unansweredRequired snap.answers q') := by
  have hmem : q ∈ quiz.questions := List.getElem?_mem hq
  have hgo : goToNext quiz snap.answers snap.currentQuestionIndex
      = (snap.currentQuestionIndex, true) := by
    simp [goToNext, hq, hreq]
  cases hfind : quiz.questions.find?
      (fun q' => unansweredRequired snap.answers q') with
  | none =>
    rw [List.find?_eq_none] at hfind
    exact absurd hreq (by simpa using hfind q hmem)
  | some firstQ =>
    refine ⟨hgo, ?_, ?_, ?_, ?_⟩ <;>
      simp only [submitOnce, hsub, hfind, Bool.false_eq_true, if_false]
    exact findIdx_id_eq_of_find? quiz.questions
      (fun q' => unansweredRequired snap.answers q') firstQ hfind hids

/-- C6 witness: the gate theorem at the concrete two-question fixture
whose first question is required and unanswered. -/
theorem required_gate_witness :
    quiz2.questions[ctrl0.currentQuestionIndex]? = some qReq ∧
    unansweredRequired ctrl0.answers qReq = true ∧
    (quiz2.questions.map Question.id).Nodup ∧
    ctrl0.isSubmitting = false ∧
    (goToNext quiz2 ctrl0.answers ctrl0.currentQuestionIndex
        = (ctrl0.currentQuestionIndex, true) ∧
     (submitOnce quiz2 (some user1) 1000 true ctrl0
        Trigger.manual).persisted = none ∧
     (submitOnce quiz2 (some user1) 1000 true ctrl0
        Trigger.manual).diagnostic = true ∧
     (submitOnce quiz2 (some user1) 1000 true ctrl0
        Trigger.manual).next.isSubmitting = false ∧
     (submitOnce quiz2 (some user1) 1000 true ctrl0
        Trigger.manual).next.currentQuestionIndex
       = quiz2.questions.findIdx
           (fun q' => unansweredRequired ctrl0.answers q')) :=
  ⟨by decide, by decide, by decide, rfl,
    by
      have h := required_gate quiz2 user1 1000 true ctrl0 qReq
        (by decide) (by decide) (by decide) rfl
      exact ⟨h.1, h.2.1, h.2.2.1, h.2.2.2.1, h.2.2.2.2⟩⟩

/-- The countdown list `[m-1, …, 1, 0]` as integers. -/
def downFrom : Nat → List Int
  | 0 => []
  | m + 1 => (m : Int) :: downFrom m

theorem downFrom_length (m : Nat) : (downFrom m).length = m := by
  induction m with
  | zero => rfl
  | succ k ih => simp [downFrom, ih]

theorem mem_downFrom {v : Int} {m : Nat} :
    v ∈ downFrom m ↔ 0 ≤ v ∧ v < m := by
  induction m with
  | zero => simp [downFrom]
  | succ k ih =>
    simp only [downFrom, List.mem_cons, ih]
    constructor
    · rintro (rfl | ⟨h0, hk⟩)
      · exact ⟨Int.natCast_nonneg k, by exact_mod_cast Nat.lt_succ_self k⟩
      · exact ⟨h0, hk.trans (by exact_mod_cast Nat.lt_succ_self k)⟩
    · rintro ⟨h0, hk⟩
      by_cases hv : v = (k : Int)
      · exact Or.inl hv
      · refine Or.inr ⟨h0, ?_⟩
        have : v < ((k + 1 : Nat) : Int) := hk
        omega

theorem downFrom_chain' (m : Nat) : (downFrom m).Chain' (· > ·) := by
  induction m with
  | zero => exact List.chain'_nil
  | succ k ih =>
    rw [downFrom, List.chain'_cons']
    refine ⟨?_, ih⟩
    intro b hb
    have hbmem : b ∈ downFrom k := List.mem_of_mem_head? hb
    exact (mem_downFrom.mp hbmem).2

theorem downFrom_getLast? {m : Nat} (hm : m ≠ 0) :
    (downFrom m).getLast? = some 0 := by
  induction m with
  | zero => exact absurd rfl hm
  | succ k ih =>
    cases k with
    | zero => rfl
    | succ j =>
      rw [downFrom]
      rw [show downFrom (j + 1) = (j : Int) :: downFrom j from rfl,
        List.getLast?_cons_cons,
        ← show downFrom (j + 1) = (j : Int) :: downFrom j from rfl]
      exact ih (Nat.succ_ne_zero j)

/-- Closed form of the clock trace from a natural starting value: the
ticks count down `m-1, …, 0` and the expiry branch ends the trace. -/
theorem clockEvents_natCast (m : Nat) :
    clockEvents (m : Int)
      = (downFrom m).map ClockEvent.tick ++ [ClockEvent.expire] := by
  induction m with
  | zero => rw [clockEvents]; simp [downFrom]
  | succ n ihn =>
    rw [clockEvents, if_neg (by omega)]
    have h2 : ((n + 1 : Nat) : Int) - 1 = ((n : Nat) : Int) := by
      push_cast; ring
    rw [h2, ihn]
    simp [downFrom]

/-- Closed form of the clock trace from any non-negative start. -/
theorem clockEvents_eq_of_nonneg (n : Int) (hn : 0 ≤ n) :
    clockEvents n
      = (downFrom n.toNat).map ClockEvent.tick ++ [ClockEvent.expire] := by
  have h := clockEvents_natCast n.toNat
  rwa [Int.toNat_of_nonneg hn] at h

theorem ticksOf_tickList (l : List Int) :
    ticksOf (l.map ClockEvent.tick ++ [ClockEvent.expire]) = l := by
  unfold ticksOf
  rw [List.filterMap_append, List.filterMap_map]
  simp [Function.comp_def]

theorem expireCount_tickList (l : List Int) :
    expireCount (l.map ClockEvent.tick) = 0 := by
  unfold expireCount
  rw [List.countP_map]
  simp [Function.comp_def]

/-- The tick values of the clock trace are `n-1, …, 0`. -/
theorem ticksOf_clockEvents (n : Int) (hn : 0 ≤ n) :
    ticksOf (clockEvents n) = downFrom n.toNat := by
  rw [clockEvents_eq_of_nonneg n hn, ticksOf_tickList]

/-- The expiry branch appears exactly once in the pure countdown
trace. -/
theorem expireCount_clockEvents (n : Int) (hn : 0 ≤ n) :
    expireCount (clockEvents n) = 1 := by
  rw [clockEvents_eq_of_nonneg n hn]
  unfold expireCount
  rw [List.countP_append]
  have h0 := expireCount_tickList (downFrom n.toNat)
  unfold expireCount at h0
  rw [h0]
  rfl

theorem ticksOf_nil : ticksOf [] = [] := rfl

theorem ticksOf_append (l₁ l₂ : List ClockEvent) :
    ticksOf (l₁ ++ l₂) = ticksOf l₁ ++ ticksOf l₂ := by
  unfold ticksOf
  exact List.filterMap_append _ _ _

theorem ticksOf_tick (r : Int) (l : List ClockEvent) :
    ticksOf (ClockEvent.tick r :: l) = r :: ticksOf l := rfl

theorem ticksOf_expire (l : List ClockEvent) :
    ticksOf (ClockEvent.expire :: l) = ticksOf l := rfl

theorem expireCount_append (l₁ l₂ : List ClockEvent) :
    expireCount (l₁ ++ l₂) = expireCount l₁ + expireCount l₂ := by
  unfold expireCount
  exact List.countP_append _ _ _

theorem expireCount_tick (r : Int) (l : List ClockEvent) :
    expireCount (ClockEvent.tick r :: l) = expireCount l := by
  unfold expireCount
  simp [List.countP_cons]

theorem expireCount_expire (l : List ClockEvent) :
    expireCount (ClockEvent.expire :: l) = expireCount l + 1 := by
  unfold expireCount
  simp [List.countP_cons]

/-- The descending integer run `[t-1, t-2, …, t-m]`. -/
def intsDown : Int → Nat → List Int
  | _, 0 => []
  | t, m + 1 => (t - 1) :: intsDown (t - 1) m

theorem mem_intsDown {v t : Int} {m : Nat} (hv : v ∈ intsDown t m) :
    t - m ≤ v ∧ v < t := by
  induction m generalizing t with
  | zero => simp [intsDown] at hv
  | succ k ih =>
    rw [intsDown] at hv
    rcases List.mem_cons.mp hv with rfl | hv'
    · constructor <;> [push_cast; skip] <;> omega
    · obtain ⟨h1, h2⟩ := ih hv'
      constructor <;> [push_cast; skip] <;> omega

theorem chain'_intsDown (m : Nat) : ∀ t : Int,
    (intsDown t m).Chain' (· > ·) := by
  induction m with
  | zero => intro t; simp [intsDown]
  | succ k ih =>
    intro t
    rw [intsDown, List.chain'_cons']
    refine ⟨?_, ih (t - 1)⟩
    intro b hb
    have := mem_intsDown (List.mem_of_mem_head? hb)
    omega

/-- Structure of a timer run: some number `m` of effective interval
firings, each decrementing by one, so the final `timeLeft` is `t - m`
and the ticks are exactly `t-1, …, t-m`. -/
theorem timerRun_state_ticks (evs : List TimerEv) : ∀ t : Int,
    ∃ m : Nat, ((m : Int) ≤ t ∨ m = 0) ∧
      (timerRun t evs).1 = t - m ∧
      ticksOf (timerRun t evs).2 = intsDown t m := by
  induction evs with
  | nil =>
    intro t
    exact ⟨0, Or.inr rfl, by simp [timerRun], rfl⟩
  | cons e evs ih =>
    intro t
    cases e with
    | interval =>
      by_cases h : t ≤ 0
      · obtain ⟨m, hm, hst, htk⟩ := ih t
        refine ⟨m, hm, ?_, ?_⟩
        · simpa [timerRun, timerStep, h] using hst
        · simpa [timerRun, timerStep, h, ticksOf_append] using htk
      · obtain ⟨m, hm, hst, htk⟩ := ih (t - 1)
        refine ⟨m + 1, by omega, ?_, ?_⟩
        · simp only [timerRun, timerStep, if_neg h]
          rw [hst]
          push_cast
          ring
        · simp only [timerRun, timerStep, if_neg h]
          by_cases h2 : t - 1 ≤ 0 <;>
            simp [h2, ticksOf_append, ticksOf_tick, ticksOf_expire,
              ticksOf_nil, htk, intsDown]
    | depChange =>
      obtain ⟨m, hm, hst, htk⟩ := ih t
      refine ⟨m, hm, ?_, ?_⟩ <;> by_cases h : t ≤ 0
      · simpa [timerRun, timerStep, h] using hst
      · simpa [timerRun, timerStep, h] using hst
      · simpa [timerRun, timerStep, h, ticksOf_append, ticksOf_expire,
          ticksOf_nil] using htk
      · simpa [timerRun, timerStep, h, ticksOf_append, ticksOf_nil]
          using htk

/-- Once `timeLeft` is at (or below) zero, no tick is ever emitted
again, whatever the schedule. -/
theorem timerRun_ticks_nil_of_nonpos (evs : List TimerEv) (t : Int)
    (h : t ≤ 0) : ticksOf (timerRun t evs).2 = [] := by
  obtain ⟨m, hm, _, htk⟩ := timerRun_state_ticks evs t
  have hm0 : m = 0 := by rcases hm with h1 | h1 <;> omega
  rw [htk, hm0]
  rfl

/-- The remaining value never goes below zero. -/
theorem timerRun_state_nonneg (evs : List TimerEv) (t : Int)
    (h : 0 ≤ t) : 0 ≤ (timerRun t evs).1 := by
  obtain ⟨m, hm, hst, _⟩ := timerRun_state_ticks evs t
  rcases hm with h1 | h1 <;> omega

/-- Every tick precedes every expiry firing: the trace splits into an
expiry-free prefix and a tick-free suffix. -/
theorem timerRun_ticks_before_expires (evs : List TimerEv) : ∀ t : Int,
    ∃ l₁ l₂, (timerRun t evs).2 = l₁ ++ l₂ ∧
      expireCount l₁ = 0 ∧ ticksOf l₂ = [] := by
  induction evs with
  | nil => intro t; exact ⟨[], [], by simp [timerRun], rfl, rfl⟩
  | cons e evs ih =>
    intro t
    cases e with
    | interval =>
      by_cases h : t ≤ 0
      · obtain ⟨l₁, l₂, heq, h1, h2⟩ := ih t
        exact ⟨l₁, l₂, by simpa [timerRun, timerStep, h] using heq,
          h1, h2⟩
      · by_cases h2 : t - 1 ≤ 0
        · refine ⟨[ClockEvent.tick (t - 1)],
            ClockEvent.expire :: (timerRun (t - 1) evs).2, ?_, ?_, ?_⟩
          · simp [timerRun, timerStep, h, h2]
          · rfl
          · rw [ticksOf_expire]
            exact timerRun_ticks_nil_of_nonpos evs (t - 1) h2
        · obtain ⟨l₁, l₂, heq, hh1, hh2⟩ := ih (t - 1)
          refine ⟨ClockEvent.tick (t - 1) :: l₁, l₂, ?_, ?_, hh2⟩
          · simp [timerRun, timerStep, h, h2, heq]
          · rw [expireCount_tick]; exact hh1
    | depChange =>
      by_cases h : t ≤ 0
      · refine ⟨[], ClockEvent.expire :: (timerRun t evs).2, ?_, rfl, ?_⟩
        · simp [timerRun, timerStep, h]
        · rw [ticksOf_expire]
          exact timerRun_ticks_nil_of_nonpos evs t h
      · obtain ⟨l₁, l₂, heq, h1, h2⟩ := ih t
        exact ⟨l₁, l₂, by simpa [timerRun, timerStep, h] using heq,
          h1, h2⟩

/-- From a positive start, the expiry branch has fired iff the
remaining value reached zero. -/
theorem timerRun_expire_iff (evs : List TimerEv) : ∀ t : Int, 0 < t →
    (1 ≤ expireCount (timerRun t evs).2 ↔ (timerRun t evs).1 ≤ 0) := by
  induction evs with
  | nil =>
    intro t ht
    simp only [timerRun, expireCount, List.countP_nil]
    omega
  | cons e evs ih =>
    intro t ht
    cases e with
    | interval =>
      have h : ¬t ≤ 0 := by omega
      by_cases h2 : t - 1 ≤ 0
      · have hstate : (timerRun (t - 1) evs).1 ≤ 0 := by
          obtain ⟨m, hm, hst, _⟩ := timerRun_state_ticks evs (t - 1)
          rcases hm with h1 | h1 <;> omega
        refine iff_of_true ?_ ?_
        · simp [timerRun, timerStep, h, h2, expireCount_append,
            expireCount_tick, expireCount_expire]
        · simpa [timerRun, timerStep, h, h2] using hstate
      · have := ih (t - 1) (by omega)
        simp only [timerRun, timerStep, if_neg h, if_neg h2]
        simpa [expireCount_append, expireCount_tick] using this
    | depChange =>
      have h : ¬t ≤ 0 := by omega
      have := ih t ht
      simp only [timerRun, timerStep, if_neg h]
      simpa using this

/-- A pure countdown run (`m` interval firings from `timeLeft = m`)
reaches zero and emits the ticks `m-1, …, 0` followed, when `m > 0`, by
one expiry firing. -/
theorem timerRun_replicate (m : Nat) :
    timerRun (m : Int) (List.replicate m TimerEv.interval)
      = (0, (downFrom m).map ClockEvent.tick
          ++ if m = 0 then [] else [ClockEvent.expire]) := by
  induction m with
  | zero => simp [timerRun, downFrom]
  | succ k ih =>
    rw [List.replicate_succ]
    have h : ¬((k + 1 : Nat) : Int) ≤ 0 := by push_cast; omega
    have hsub : ((k + 1 : Nat) : Int) - 1 = (k : Int) := by
      push_cast; ring
    simp only [timerRun, timerStep, if_neg h, hsub, ih]
    cases k with
    | zero => simp [downFrom]
    | succ j =>
      have h2 : ¬((j + 1 : Nat) : Int) ≤ 0 := by push_cast; omega
      simp [h2, downFrom]

/-- Under the pure countdown schedule — the effect re-run only by
`timeLeft` changes — the full trace is exactly `clockEvents`. -/
theorem timerTrace_pure_countdown (n : Int) (hn : 0 ≤ n) :
    timerTrace n (List.replicate n.toNat TimerEv.interval)
      = clockEvents n := by
  obtain ⟨m, rfl⟩ : ∃ m : Nat, n = (m : Int) :=
    ⟨n.toNat, (Int.toNat_of_nonneg hn).symm⟩
  rw [timerTrace, Int.toNat_natCast, timerRun_replicate m,
    clockEvents_natCast m]
  cases m with
  | zero => simp [downFrom]
  | succ k =>
    have h : ¬((k + 1 : Nat) : Int) ≤ 0 := by push_cast; omega
    simp [h]

/-- C5 counterexample.  The expiry branch does not fire exactly once:
the program's own canonical run re-fires it.  From `timeLeft = 1`, the
interval firing reaches 0 and executes the expiry branch (toast +
`handleSubmitQuiz('timeout')`); that call commits
`setIsSubmitting(true)`, which changes `handleSubmitQuiz`'s identity,
which re-runs the effect — a dependency-change step at `timeLeft = 0` —
and the expiry branch executes a second time. -/
theorem c5_counterexample :
    timerTrace 1 [TimerEv.interval, TimerEv.depChange]
      = [ClockEvent.tick 0, ClockEvent.expire, ClockEvent.expire] ∧
    expireCount (timerTrace 1 [TimerEv.interval, TimerEv.depChange])
      = 2 := by
  decide

/-- C5 amended.  For the timer started at `n ≥ 0`, under any schedule
of interval firings and dependency-driven effect re-runs: starting at 0
fires the expiry branch at once with no tick ever; ticks are strictly
decreasing and confined to `[0, n)`; the remaining value never goes
below 0; from a positive start the expiry branch fires iff the
remaining value reached 0; no tick follows any expiry firing.  Exactly
one expiry firing is guaranteed only for the pure countdown schedule
(no dependency-driven re-run at zero), whose trace is `clockEvents n`:
there the expiry is unique, the ticks number `n` and the last tick
lands on 0. -/
theorem sessionClock_amended (n : Int) (hn : 0 ≤ n)
    (evs : List TimerEv) :
    (n = 0 → ticksOf (timerTrace n evs) = [] ∧
      1 ≤ expireCount (timerTrace n evs)) ∧
    (ticksOf (timerTrace n evs)).Chain' (· > ·) ∧
    (∀ v ∈ ticksOf (timerTrace n evs), 0 ≤ v ∧ v < n) ∧
    0 ≤ (timerRun n evs).1 ∧
    (0 < n → (1 ≤ expireCount (timerTrace n evs) ↔
      (timerRun n evs).1 ≤ 0)) ∧
    (∃ l₁ l₂, timerTrace n evs = l₁ ++ l₂ ∧
      expireCount l₁ = 0 ∧ ticksOf l₂ = []) ∧
    timerTrace n (List.replicate n.toNat TimerEv.interval)
      = clockEvents n ∧
    expireCount (clockEvents n) = 1 ∧
    (0 < n → (ticksOf (clockEvents n)).getLast? = some 0) ∧
    (ticksOf (clockEvents n)).length = n.toNat := by
  have htt : ticksOf (timerTrace n evs)
      = ticksOf (timerRun n evs).2 := by
    unfold timerTrace
    by_cases h : n ≤ 0 <;>
      simp [h, ticksOf_append, ticksOf_expire, ticksOf_nil]
  refine ⟨?_, ?_, ?_, ?_, ?_, ?_,
    timerTrace_pure_countdown n hn, expireCount_clockEvents n hn,
    ?_, ?_⟩
  · rintro rfl
    refine ⟨htt.trans (timerRun_ticks_nil_of_nonpos evs 0 le_rfl), ?_⟩
    unfold timerTrace
    simp [expireCount_append, expireCount_expire, expireCount]
  · rw [htt]
    obtain ⟨m, _, _, htk⟩ := timerRun_state_ticks evs n
    rw [htk]
    exact chain'_intsDown m n
  · intro v hv
    rw [htt] at hv
    obtain ⟨m, hm, _, htk⟩ := timerRun_state_ticks evs n
    rw [htk] at hv
    have hb := mem_intsDown hv
    rcases hm with h1 | h1
    · omega
    · rw [h1] at hv
      simp [intsDown] at hv
  · exact timerRun_state_nonneg evs n hn
  · intro hpos
    have hinit : timerTrace n evs = (timerRun n evs).2 := by
      unfold timerTrace
      rw [if_neg (by omega), List.nil_append]
    rw [hinit]
    exact timerRun_expire_iff evs n hpos
  · by_cases h : n ≤ 0
    · refine ⟨[], timerTrace n evs, (List.nil_append _).symm, rfl, ?_⟩
      have hn0 : n = 0 := by omega
      rw [htt]
      exact timerRun_ticks_nil_of_nonpos evs n h
    · obtain ⟨l₁, l₂, heq, h1, h2⟩ := timerRun_ticks_before_expires evs n
      refine ⟨l₁, l₂, ?_, h1, h2⟩
      unfold timerTrace
      rw [if_neg h, List.nil_append, heq]
  · intro hpos
    rw [ticksOf_clockEvents n hn]
    exact downFrom_getLast? (by omega)
  · rw [ticksOf_clockEvents n hn, downFrom_length]

/-- C5 witness: the amended theorem at the concrete start `timeLeft =
1` under the program's canonical double-expiry schedule. -/
theorem sessionClock_amended_witness :
    (0 : Int) ≤ 1 ∧
    (((1 : Int) = 0 →
        ticksOf (timerTrace 1 [TimerEv.interval, TimerEv.depChange])
          = [] ∧
        1 ≤ expireCount
          (timerTrace 1 [TimerEv.interval, TimerEv.depChange])) ∧
     (ticksOf (timerTrace 1
        [TimerEv.interval, TimerEv.depChange])).Chain' (· > ·) ∧
     (∀ v ∈ ticksOf (timerTrace 1 [TimerEv.interval, TimerEv.depChange]),
        0 ≤ v ∧ v < 1) ∧
     0 ≤ (timerRun 1 [TimerEv.interval, TimerEv.depChange]).1 ∧
     ((0 : Int) < 1 →
       (1 ≤ expireCount (timerTrace 1
            [TimerEv.interval, TimerEv.depChange]) ↔
        (timerRun 1 [TimerEv.interval, TimerEv.depChange]).1 ≤ 0)) ∧
     (∃ l₁ l₂, timerTrace 1 [TimerEv.interval, TimerEv.depChange]
          = l₁ ++ l₂ ∧ expireCount l₁ = 0 ∧ ticksOf l₂ = []) ∧
     timerTrace 1 (List.replicate (1 : Int).toNat TimerEv.interval)
        = clockEvents 1 ∧
     expireCount (clockEvents 1) = 1 ∧
     ((0 : Int) < 1 → (ticksOf (clockEvents 1)).getLast? = some 0) ∧
     (ticksOf (clockEvents 1)).length = (1 : Int).toNat) :=
  ⟨by norm_num,
    sessionClock_amended 1 (by norm_num)
      [TimerEv.interval, TimerEv.depChange]⟩

end QuizWhiz
